import Mathlib

/-!
# Verification of the PumpCantFun agent event & scheduling runtime

Shallow embedding of the core runtime (agent-manager, behavior-randomizer,
event engine, memory manager) and proofs of the specified properties.

All randomness (`Math.random()` draws) is made explicit: each draw is a
rational parameter, assumed in `[0, 1)` where a theorem needs it.
JavaScript numbers are modelled as rationals (`ℚ`) where fractional
arithmetic matters and as naturals/integers for timestamps and counters.
-/

namespace PumpCantFun

/-! ## Behavior randomizer: `getNextPostInterval`

Embedding of `getNextPostInterval(agent)` from the behavior randomizer.
The four `Math.random()` draws are explicit parameters, in call order:
`rBase` (base interval), `rScale` (peak/off-peak scaling), `rCoin` (the
50% extra-jitter coin), `rJitter` (extra jitter amount).  The current
wall-clock hour is the parameter `currentHour`.  `Math.floor` is `Int.floor`.
-/

/-- Post-frequency configuration of an agent (`agent.behavior.postFrequency`). -/
structure PostFrequency where
  minHoursBetweenPosts : ℚ
  maxHoursBetweenPosts : ℚ
  peakPostingHours : List ℕ

/-- Function `getNextPostInterval` from the behavior randomizer, with explicit draws. -/
def getNextPostInterval (pf : PostFrequency) (currentHour : ℕ)
    (rBase rScale rCoin rJitter : ℚ) : ℤ :=
  let minMs : ℚ := pf.minHoursBetweenPosts * 60 * 60 * 1000
  let maxMs : ℚ := pf.maxHoursBetweenPosts * 60 * 60 * 1000
  let interval0 : ℚ := minMs + rBase * (maxMs - minMs)
  let isPeakHour : Bool := pf.peakPostingHours.contains currentHour
  let interval1 : ℚ :=
    if isPeakHour then interval0 * (7/10 + rScale * (2/10))
    else interval0 * (11/10 + rScale * (2/10))
  let interval2 : ℚ := if rCoin > 1/2 then interval1 + rJitter * 5 * 60 * 1000 else interval1
  let interval3 : ℚ := min interval2 maxMs
  ⌊interval3⌋

/-- Milliseconds corresponding to the configured minimum hours between posts. -/
def minMsOf (pf : PostFrequency) : ℚ := pf.minHoursBetweenPosts * 60 * 60 * 1000

/-- Milliseconds corresponding to the configured maximum hours between posts. -/
def maxMsOf (pf : PostFrequency) : ℚ := pf.maxHoursBetweenPosts * 60 * 60 * 1000

/-- A sample configuration: 2–4 hours between posts, hour 13 is a peak hour. -/
def samplePF : PostFrequency := ⟨2, 4, [13]⟩

/-- C1 counterexample: during a peak hour the scaling by `0.7 + 0.2·r`
is applied after the base interval is drawn, and only the *upper* bound is
clamped, so the returned interval can drop below `minMs`.  With
`minHours = 2`, `maxHours = 4`, peak hour 13 and all draws 0 the result is
`0.7 · minMs = 5 040 000 ms < 7 200 000 ms = minMs`. -/
theorem getNextPostInterval_below_min :
    getNextPostInterval samplePF 13 0 0 0 0 = 5040000 ∧
    ¬ (minMsOf samplePF ≤ (getNextPostInterval samplePF 13 0 0 0 0 : ℚ)) := by
  have h : getNextPostInterval samplePF 13 0 0 0 0 = 5040000 := by
    norm_num [getNextPostInterval, samplePF]
  refine ⟨h, ?_⟩
  rw [h]
  norm_num [minMsOf, samplePF]

/-- C1 amended: the returned interval never exceeds `maxMs` (for any draws),
and during *off-peak* hours it is at least `minMs` (whenever `minMs` is a
whole number of milliseconds, which flooring requires); during peak hours
the lower bound can be violated (see the counterexample). -/
theorem getNextPostInterval_amended_bounds
    (pf : PostFrequency) (currentHour : ℕ) (rBase rScale rCoin rJitter : ℚ)
    (hmin : 0 ≤ pf.minHoursBetweenPosts)
    (hle : pf.minHoursBetweenPosts ≤ pf.maxHoursBetweenPosts)
    (hB : 0 ≤ rBase) (hS : 0 ≤ rScale) (hJ : 0 ≤ rJitter) :
    ((getNextPostInterval pf currentHour rBase rScale rCoin rJitter : ℚ) ≤ maxMsOf pf) ∧
    (pf.peakPostingHours.contains currentHour = false →
      ∀ k : ℤ, (k : ℚ) = minMsOf pf →
        k ≤ getNextPostInterval pf currentHour rBase rScale rCoin rJitter) := by
  have hminMs : (0:ℚ) ≤ pf.minHoursBetweenPosts * 60 * 60 * 1000 := by
    have h60 : (0:ℚ) ≤ 60 * 60 * 1000 := by norm_num
    nlinarith
  have hmaxMs : pf.minHoursBetweenPosts * 60 * 60 * 1000 ≤
      pf.maxHoursBetweenPosts * 60 * 60 * 1000 := by nlinarith
  constructor
  · -- upper bound: the final `min` clamps to `maxMs`, and `⌊x⌋ ≤ x`
    simp only [getNextPostInterval, maxMsOf]
    refine le_trans (Int.floor_le _) ?_
    exact min_le_right _ _
  · -- off-peak lower bound
    intro hpeak k hk
    simp only [getNextPostInterval, hpeak, if_false]
    rw [Int.le_floor, hk]
    simp only [minMsOf]
    have hI0 : pf.minHoursBetweenPosts * 60 * 60 * 1000 ≤
        pf.minHoursBetweenPosts * 60 * 60 * 1000 +
          rBase * (pf.maxHoursBetweenPosts * 60 * 60 * 1000 -
            pf.minHoursBetweenPosts * 60 * 60 * 1000) := by nlinarith
    have hI0nn : (0:ℚ) ≤ pf.minHoursBetweenPosts * 60 * 60 * 1000 +
        rBase * (pf.maxHoursBetweenPosts * 60 * 60 * 1000 -
          pf.minHoursBetweenPosts * 60 * 60 * 1000) := le_trans hminMs hI0
    have hI1 : pf.minHoursBetweenPosts * 60 * 60 * 1000 ≤
        (pf.minHoursBetweenPosts * 60 * 60 * 1000 +
          rBase * (pf.maxHoursBetweenPosts * 60 * 60 * 1000 -
            pf.minHoursBetweenPosts * 60 * 60 * 1000)) * (11/10 + rScale * (2/10)) := by
      nlinarith
    have hI2 : pf.minHoursBetweenPosts * 60 * 60 * 1000 ≤
        (if rCoin > 1/2 then
          (pf.minHoursBetweenPosts * 60 * 60 * 1000 +
            rBase * (pf.maxHoursBetweenPosts * 60 * 60 * 1000 -
              pf.minHoursBetweenPosts * 60 * 60 * 1000)) * (11/10 + rScale * (2/10)) +
            rJitter * 5 * 60 * 1000
        else
          (pf.minHoursBetweenPosts * 60 * 60 * 1000 +
            rBase * (pf.maxHoursBetweenPosts * 60 * 60 * 1000 -
              pf.minHoursBetweenPosts * 60 * 60 * 1000)) * (11/10 + rScale * (2/10))) := by
      split
      · nlinarith
      · exact hI1
    exact le_min hI2 hmaxMs

/-- Witness for `getNextPostInterval_amended_bounds` at concrete inputs. -/
theorem getNextPostInterval_amended_bounds_witness :
    ((getNextPostInterval samplePF 0 (1/2) (1/2) (1/2) (1/2) : ℚ) ≤ maxMsOf samplePF) ∧
    (samplePF.peakPostingHours.contains 0 = false →
      ∀ k : ℤ, (k : ℚ) = minMsOf samplePF →
        k ≤ getNextPostInterval samplePF 0 (1/2) (1/2) (1/2) (1/2)) :=
  getNextPostInterval_amended_bounds samplePF 0 (1/2) (1/2) (1/2) (1/2)
    (by norm_num [samplePF]) (by norm_num [samplePF])
    (by norm_num) (by norm_num) (by norm_num)

/-! ## Event engine: priority queue and drain loop

Embedding of the event engine.  `queueEvent` pushes the event and re-sorts
the whole queue with `Array.prototype.sort` under the comparator
`priorityValue(b) - priorityValue(a)`; since ES2019 that sort is stable, so
it is modelled as a stable insertion sort by descending priority.
`processEvents` repeatedly shifts the queue head and dispatches it, so the
dispatch order of a drain with no interleaved enqueues is the queue order.

The JavaScript asynchrony matters: `queueEvent` on an idle engine calls
`processEvents()` synchronously, which shifts the head and *begins its
dispatch* (the listeners run up to their first await) before control
returns to the caller.  Hence events enqueued later in the same
synchronous block can never precede the first event, whatever their
priority.  `dispatchOrderFromIdle` models a synchronous block of enqueues
starting from an idle engine; `enqueueAll` models enqueues that happen
while a drain is already in progress (`isProcessing = true`), which leave
all events in the queue together. -/

/-- Event priorities (`'low' | 'normal' | 'high' | 'critical'`). -/
inductive Priority
  | low
  | normal
  | high
  | critical
deriving DecidableEq, Repr

/-- The `priorityValues` table in `sortEventQueue`. -/
def priorityValue : Priority → ℕ
  | .critical => 3
  | .high => 2
  | .normal => 1
  | .low => 0

/-- An event; only identity and priority matter for ordering claims. -/
structure Event where
  id : ℕ
  priority : Priority
deriving DecidableEq, Repr

/-- Dispatch-order relation: `a` may precede `b` (descending priority). -/
def eventGE (a b : Event) : Prop :=
  priorityValue b.priority ≤ priorityValue a.priority

instance : DecidableRel eventGE := fun a b =>
  inferInstanceAs (Decidable (priorityValue b.priority ≤ priorityValue a.priority))

/-- Stable insertion step: the new event goes after every queued event of
equal or higher priority, matching a stable descending sort. -/
def insertEvent (e : Event) : List Event → List Event
  | [] => [e]
  | x :: xs =>
    if priorityValue e.priority ≤ priorityValue x.priority then
      x :: insertEvent e xs
    else
      e :: x :: xs

/-- Method `sortEventQueue`: stable sort by descending `priorityValue`. -/
def sortEventQueue (q : List Event) : List Event :=
  q.foldl (fun acc e => insertEvent e acc) []

/-- Method `queueEvent` while a drain is in progress: push, then re-sort. -/
def queueEvent (q : List Event) (e : Event) : List Event :=
  sortEventQueue (q ++ [e])

/-- Enqueue a block of events while `isProcessing` is `true`. -/
def enqueueAll (q : List Event) (es : List Event) : List Event :=
  es.foldl queueEvent q

/-- The drain loop of `processEvents`: shift the head, dispatch, repeat.
Returns the dispatch order. -/
def processEvents : List Event → List Event
  | [] => []
  | e :: rest => e :: processEvents rest

/-- Dispatch order of a synchronous block of `queueEvent` calls starting
from an idle engine: the first enqueue synchronously starts the drain,
which shifts and dispatches the first event before the later enqueues
run; the rest are queued (sorted) during the suspension and drained
afterwards. -/
def dispatchOrderFromIdle : List Event → List Event
  | [] => []
  | e :: rest => e :: processEvents (enqueueAll [] rest)

/-- The three events of the spec's priority-ordering scenario. -/
def lowEv : Event := ⟨1, .low⟩

/-- The critical-priority event of the scenario. -/
def criticalEv : Event := ⟨2, .critical⟩

/-- The normal-priority event of the scenario. -/
def normalEv : Event := ⟨3, .normal⟩

/-- C7 counterexample: enqueuing `low, critical, normal` in one synchronous
block from an idle engine dispatches `low` first — `queueEvent` starts the
drain synchronously and `low` is shifted out of the queue before
`critical` is ever enqueued — so the claimed order
`critical, normal, low` does not hold, and the later, higher-priority
`critical` event is not dispatched before the earlier `low` one. -/
theorem dispatchOrderFromIdle_not_priority_sorted :
    dispatchOrderFromIdle [lowEv, criticalEv, normalEv] =
      [lowEv, criticalEv, normalEv] ∧
    dispatchOrderFromIdle [lowEv, criticalEv, normalEv] ≠
      [criticalEv, normalEv, lowEv] := by
  constructor
  · decide
  · decide

/-- Membership after an `insertEvent` step: the new or an old event. -/
theorem mem_insertEvent (y e : Event) : ∀ (l : List Event),
    y ∈ insertEvent e l → y = e ∨ y ∈ l := by
  intro l
  induction l with
  | nil => intro hy; simpa [insertEvent] using hy
  | cons z zs ihz =>
    intro hy
    rw [insertEvent] at hy
    split at hy
    · rcases List.mem_cons.mp hy with hy | hy
      · exact Or.inr (by simp [hy])
      · rcases ihz hy with h' | h'
        · exact Or.inl h'
        · exact Or.inr (by simp [h'])
    · rcases List.mem_cons.mp hy with hy | hy
      · exact Or.inl hy
      · exact Or.inr hy

/-- Any `insertEvent` step preserves sortedness by descending priority. -/
theorem sorted_insertEvent (e : Event) (l : List Event)
    (h : l.Sorted eventGE) : (insertEvent e l).Sorted eventGE := by
  induction l with
  | nil => simp [insertEvent, List.Sorted]
  | cons x xs ih =>
    rw [List.sorted_cons] at h
    obtain ⟨hx, hxs⟩ := h
    by_cases hle : priorityValue e.priority ≤ priorityValue x.priority
    · rw [insertEvent, if_pos hle, List.sorted_cons]
      refine ⟨?_, ih hxs⟩
      intro y hy
      rcases mem_insertEvent y e xs hy with rfl | hy'
      · exact hle
      · exact hx y hy'
    · rw [insertEvent, if_neg hle, List.sorted_cons]
      push_neg at hle
      refine ⟨?_, by rw [List.sorted_cons]; exact ⟨hx, hxs⟩⟩
      intro y hy
      rcases List.mem_cons.mp hy with rfl | hy'
      · exact le_of_lt hle
      · exact le_trans (hx y hy') (le_of_lt hle)

/-- The sort used by `queueEvent` always yields a priority-sorted queue. -/
theorem sorted_sortEventQueue (q : List Event) :
    (sortEventQueue q).Sorted eventGE := by
  suffices h : ∀ (q acc : List Event), acc.Sorted eventGE →
      (q.foldl (fun a e => insertEvent e a) acc).Sorted eventGE by
    exact h q [] (by simp)
  intro q
  induction q with
  | nil => intro acc h; simpa using h
  | cons e q ih =>
    intro acc h
    rw [List.foldl_cons]
    exact ih _ (sorted_insertEvent e acc h)

/-- Enqueuing onto a sorted queue keeps it sorted. -/
theorem sorted_enqueueAll (es : List Event) (q : List Event)
    (h : q.Sorted eventGE) : (enqueueAll q es).Sorted eventGE := by
  induction es generalizing q with
  | nil => simpa [enqueueAll] using h
  | cons e es ih =>
    rw [enqueueAll, List.foldl_cons]
    exact ih _ (sorted_sortEventQueue _)

/-- The drain dispatches exactly the queue contents in queue order. -/
theorem processEvents_eq (q : List Event) : processEvents q = q := by
  induction q with
  | nil => rfl
  | cons e rest ih => rw [processEvents, ih]

/-- C7 amended: priority ordering holds among events that are in the queue
*together*.  If `low, critical, normal` are enqueued (in that order) while
a drain is already in progress, the subsequent drain dispatches them in
the order `critical, normal, low`; in general the dispatch order of any
such block is sorted by non-increasing priority, so a higher-priority
event is dispatched before any lower-priority event enqueued earlier in
the same block.  Enqueued synchronously from an idle engine, however, the
first event is dispatched first regardless of priority (see the
counterexample). -/
theorem processEvents_priority_order :
    processEvents (enqueueAll [] [lowEv, criticalEv, normalEv]) =
      [criticalEv, normalEv, lowEv] ∧
    ∀ (es : List Event),
      (processEvents (enqueueAll [] es)).Sorted eventGE := by
  constructor
  · decide
  · intro es
    rw [processEvents_eq]
    exact sorted_enqueueAll es [] (by simp)

/-! ## API error backoff: `_handleApiError`

Per-agent consecutive-error counter and escalating cooldown.  The error
object carries an optional top-level `code` and a list of sub-errors with
codes (`error.errors`), matching the Twitter API error shape tested by
the source (`error.code === 429 || error.errors.some(e => e.code === 88)`). -/

/-- A sub-error inside a Twitter API error response. -/
structure TwitterSubError where
  code : ℕ
deriving DecidableEq

/-- A Twitter API error as inspected by `_handleApiError`. -/
structure TwitterApiError where
  code : Option ℕ
  errors : List TwitterSubError
deriving DecidableEq

/-- The rate-limit test of `_handleApiError`. -/
def isRateLimitError (e : TwitterApiError) : Bool :=
  e.code == some 429 || e.errors.any (fun s => s.code == 88)

/-- Method `_handleApiError`: increments the consecutive-error counter and returns
the new counter together with the cooldown duration in minutes. -/
def handleApiError (count : ℕ) (e : TwitterApiError) : ℕ × ℕ :=
  let count' := count + 1
  let backoff0 : ℕ :=
    if 5 ≤ count' then 60
    else if 4 ≤ count' then 30
    else if 3 ≤ count' then 15
    else if 2 ≤ count' then 5
    else 1
  let backoff := if isRateLimitError e then max backoff0 15 else backoff0
  (count', backoff)

/-- The successful-poll reset (`this.apiErrorCounts[agentId] = 0`). -/
def resetErrorCount (_count : ℕ) : ℕ := 0

/-- A plain (non-rate-limit) API error. -/
def plainError : TwitterApiError := ⟨none, []⟩

/-- A rate-limit error with HTTP status 429. -/
def rateLimit429 : TwitterApiError := ⟨some 429, []⟩

/-- A rate-limit error with Twitter error code 88. -/
def rateLimit88 : TwitterApiError := ⟨none, [⟨88⟩]⟩

/-- The cooldown durations produced by feeding `n` consecutive errors,
starting from counter value `count`. -/
def backoffSeqFrom (count : ℕ) (e : TwitterApiError) : ℕ → List ℕ
  | 0 => []
  | n + 1 =>
    let r := handleApiError count e
    r.2 :: backoffSeqFrom r.1 e n

/-- C4: consecutive errors yield cooldowns 1, 5, 15, 30, 60 minutes, with
60 for every error past the fifth; rate-limit errors (HTTP 429 or code 88)
force at least 15 minutes regardless of the counter; after a successful
poll resets the counter, the next error yields 1 minute again. -/
theorem handleApiError_escalation :
    backoffSeqFrom 0 plainError 5 = [1, 5, 15, 30, 60] ∧
    (∀ n : ℕ, 5 ≤ n → (handleApiError (n - 1) plainError).2 = 60) ∧
    (∀ (c : ℕ) (e : TwitterApiError), isRateLimitError e = true →
      15 ≤ (handleApiError c e).2) ∧
    isRateLimitError rateLimit429 = true ∧
    isRateLimitError rateLimit88 = true ∧
    (∀ c : ℕ, (handleApiError (resetErrorCount c) plainError).2 = 1) := by
  refine ⟨by decide, ?_, ?_, by decide, by decide, ?_⟩
  · intro n hn
    simp only [handleApiError, isRateLimitError, plainError]
    split_ifs <;> simp_all <;> omega
  · intro c e he
    simp only [handleApiError, he, if_true]
    split_ifs <;> omega
  · intro c
    show (handleApiError 0 plainError).2 = 1
    decide

/-- Witness for `handleApiError_escalation` at concrete inputs. -/
theorem handleApiError_escalation_witness :
    (handleApiError (7 - 1) plainError).2 = 60 ∧
    15 ≤ (handleApiError 0 rateLimit88).2 :=
  ⟨handleApiError_escalation.2.1 7 (by norm_num),
   handleApiError_escalation.2.2.1 0 rateLimit88 (by decide)⟩

/-! ## Cooldown gating: polling vs. posting

`_startPollingMentionsForAgent`'s interval callback returns early when
`now < apiCooldowns[agentId]` — no API call happens during a cooldown.
`createAgentPost`, however, only checks the minimum-time-between-posts
constraint; it never consults `apiCooldowns`, and the scheduling tick in
`scheduleAgentPosts` invokes it whenever `nextPostTimes[agentId]` is due.
The per-agent scheduling state below carries the cooldown field so that
its irrelevance to posting is expressible. -/

/-- Per-agent scheduling state slice. -/
structure AgentSchedState where
  apiCooldown : Option ℕ
  lastPostTime : Option ℕ
  nextPostTime : Option ℕ
  minHoursBetweenPosts : ℕ
deriving DecidableEq

/-- The cooldown test `this.apiCooldowns[agentId] && now < this.apiCooldowns[agentId]`. -/
def inCooldown (cooldown : Option ℕ) (now : ℕ) : Bool :=
  match cooldown with
  | some c => now < c
  | none => false

/-- Whether the mention-poll tick proceeds to call the API (lines that
return early during a cooldown). -/
def pollTickCallsApi (cooldown : Option ℕ) (now : ℕ) : Bool :=
  !(inCooldown cooldown now)

/-- Whether `createAgentPost` proceeds past its time-constraint guard
(`agent.lastPostTime && now - lastPostTime < minTime && !ignore ⇒ null`). -/
def createAgentPostProceeds (st : AgentSchedState) (now : ℕ)
    (ignoreTimeConstraint : Bool) : Bool :=
  match st.lastPostTime with
  | some last =>
    !(decide ((now : ℤ) - (last : ℤ) < (st.minHoursBetweenPosts : ℤ) * 60 * 60 * 1000)
      && !ignoreTimeConstraint)
  | none => true

/-- The scheduling tick: when a due `nextPostTime` exists it invokes
`createAgentPost` (with default options), which posts unless the
time-between-posts guard stops it. -/
def postTickCreatesPost (st : AgentSchedState) (now : ℕ) : Bool :=
  match st.nextPostTime with
  | some t => decide (t ≤ now) && createAgentPostProceeds st now false
  | none => false

/-- A state whose agent is inside an API cooldown with a due post. -/
def cooldownState : AgentSchedState :=
  ⟨some 100000, none, some 40, 3⟩

/-- C5 counterexample: with an active cooldown (now = 50 < 100000) and a
due `nextPostTime`, the scheduling tick still creates a post —
`createAgentPost` never consults `apiCooldowns`, so posting is *not*
skipped during the cooldown window. -/
theorem postTick_posts_during_cooldown :
    inCooldown cooldownState.apiCooldown 50 = true ∧
    postTickCreatesPost cooldownState 50 = true := by
  constructor
  · decide
  · decide

/-- C5 amended: while `now < cooldownUntil`, the mention-poll tick returns
without calling the API; but posting is independent of the cooldown —
`createAgentPost`'s guard reads only `lastPostTime` and the configured
minimum hours, so its outcome is unchanged under any cooldown value. -/
theorem cooldown_skips_polling_not_posting :
    (∀ (cooldown : Option ℕ) (now : ℕ), inCooldown cooldown now = true →
      pollTickCallsApi cooldown now = false) ∧
    (∀ (st : AgentSchedState) (now : ℕ) (ignore : Bool) (cd : Option ℕ),
      createAgentPostProceeds { st with apiCooldown := cd } now ignore =
        createAgentPostProceeds st now ignore) := by
  constructor
  · intro cooldown now h
    simp [pollTickCallsApi, h]
  · intro st now ignore cd
    rfl

/-- Witness for `cooldown_skips_polling_not_posting` at concrete inputs. -/
theorem cooldown_skips_polling_not_posting_witness :
    pollTickCallsApi (some 100000) 50 = false ∧
    createAgentPostProceeds { cooldownState with apiCooldown := none } 50 false =
      createAgentPostProceeds cooldownState 50 false :=
  ⟨cooldown_skips_polling_not_posting.1 (some 100000) 50 (by decide),
   cooldown_skips_polling_not_posting.2 cooldownState 50 false none⟩

/-! ## Reaction pipeline: `processAgentReaction`

Embedding of `processAgentReaction(agentId, tweet)`.  External
collaborators are parameters: the agent's fetched username
(`v2.me().username.toLowerCase()`, `none` when the lookup failed or the
value is absent), the LLM's classification (`generateReaction`), and the
three `Math.random()` draws (`rQuote` for quote dampening, `rReply` for
the reply gate, `rLike` for the like gate).  Observable side effects are
collected as an ordered trace; the dedup store (`processedTweetIds`) is a
list with set semantics.  `createAgentPost` invoked with
`ignoreTimeConstraint: true` always reaches the publish and the memory
update, which is how the mention/reply/quote branches call it. -/

/-- Test `startsWithB sub l`: `l` starts with `sub` (character lists). -/
def startsWithB : List Char → List Char → Bool
  | [], _ => true
  | _ :: _, [] => false
  | a :: as, b :: bs => a == b && startsWithB as bs

/-- Test `containsList sub l`: `sub` occurs inside `l`, like JS `includes`. -/
def containsList (sub : List Char) : List Char → Bool
  | [] => startsWithB sub []
  | c :: tl => startsWithB sub (c :: tl) || containsList sub tl

/-- JS `s.includes(sub)`. -/
def strIncludes (s sub : String) : Bool :=
  containsList sub.data s.data

/-- JS `s.toLowerCase()` (ASCII case mapping, character-wise). -/
def lowerStr (s : String) : String :=
  ⟨s.data.map Char.toLower⟩

/-- The agent configuration consulted by the reaction pipeline. -/
structure AgentConfig where
  id : String
  name : String
  replyProbability : ℚ
  quoteTweetProbability : ℚ
  likeProbability : ℚ

/-- An incoming tweet/mention as seen by `processAgentReaction`. -/
structure IncomingTweet where
  id : String
  content : String
  authorId : String
  authorUsername : Option String
  replyToId : Option String
  isDirectMention : Bool

/-- The enhanced self-mention check: author ID equals the agent ID, or the
author username case-insensitively equals the fetched agent username. -/
def isSelfMention (agent : AgentConfig) (agentUsername : Option String)
    (tweet : IncomingTweet) : Bool :=
  tweet.authorId == agent.id ||
    (match agentUsername, tweet.authorUsername with
     | some au, some tu => lowerStr tu == au
     | _, _ => false)

/-- The mention test: direct-mention flag, an `@name`/`@id` occurrence in
the lowercased content, or a `replyToId` containing the agent ID. -/
def isMention (agent : AgentConfig) (tweet : IncomingTweet) : Bool :=
  tweet.isDirectMention ||
    strIncludes (lowerStr tweet.content) ("@" ++ lowerStr agent.name) ||
    strIncludes (lowerStr tweet.content) ("@" ++ lowerStr agent.id) ||
    (match tweet.replyToId with
     | some rid => strIncludes rid agent.id
     | none => false)

/-- The action classification returned by `generateReaction`. -/
inductive ReactionAction
  | reply
  | quote
  | like
  | ignore
deriving DecidableEq, Repr

/-- Externally observable side effects of the reaction pipeline, in
program order. -/
inductive Effect
  | dedupAdd (id : String)
  | publishReply (replyToId : String)
  | publishQuote (id : String)
  | likeTweet (id : String)
  | relationshipUpdate (targetId : String)
  | memoryUpdate
deriving DecidableEq

/-- The non-null outcomes of `processAgentReaction`. -/
inductive ReactionOutcome
  | posted
  | liked
deriving DecidableEq

/-- Method `processAgentReaction`: self-check, dedup check, dedup insert, then
the mention path (always reply) or the passive path (quote dampening and
the probability gates).  Returns the result, the new dedup store, and the
ordered effect trace. -/
def processAgentReaction (agent : AgentConfig) (agentUsername : Option String)
    (tweet : IncomingTweet) (processed : List String)
    (genReaction : ReactionAction) (rQuote rReply rLike : ℚ) :
    Option ReactionOutcome × List String × List Effect :=
  if isSelfMention agent agentUsername tweet then
    (none, processed, [])
  else if processed.contains tweet.id then
    (none, processed, [])
  else
    let processed' := tweet.id :: processed
    if isMention agent tweet then
      (some .posted, processed',
        [.dedupAdd tweet.id, .publishReply tweet.id, .memoryUpdate])
    else
      let action :=
        if genReaction == .quote ∧ rQuote > agent.quoteTweetProbability * (1/2) then
          ReactionAction.ignore
        else genReaction
      match action with
      | .reply =>
        if rReply ≤ agent.replyProbability then
          (some .posted, processed',
            [.dedupAdd tweet.id, .publishReply tweet.id, .memoryUpdate])
        else
          (none, processed', [.dedupAdd tweet.id])
      | .quote =>
        (some .posted, processed',
          [.dedupAdd tweet.id, .publishQuote tweet.id, .memoryUpdate])
      | .like =>
        if rLike ≤ agent.likeProbability then
          (some .liked, processed',
            [.dedupAdd tweet.id, .likeTweet tweet.id,
              .relationshipUpdate tweet.authorId])
        else
          (none, processed', [.dedupAdd tweet.id])
      | .ignore => (none, processed', [.dedupAdd tweet.id])

/-- Shape of the pipeline output for a fresh, non-self item: the ID is
inserted into the store and the trace starts with the dedup insertion. -/
theorem processAgentReaction_fresh_shape (agent : AgentConfig)
    (au : Option String) (tweet : IncomingTweet) (processed : List String)
    (gr : ReactionAction) (r1 r2 r3 : ℚ)
    (hself : isSelfMention agent au tweet = false)
    (hfresh : processed.contains tweet.id = false) :
    ∃ res rest,
      processAgentReaction agent au tweet processed gr r1 r2 r3 =
        (res, tweet.id :: processed, Effect.dedupAdd tweet.id :: rest) := by
  rw [processAgentReaction, if_neg (by rw [hself]; exact Bool.false_ne_true),
    if_neg (by rw [hfresh]; exact Bool.false_ne_true)]
  by_cases hm : isMention agent tweet
  · rw [if_pos hm]
    exact ⟨_, _, rfl⟩
  · rw [if_neg hm]
    cases gr <;> split_ifs <;> exact ⟨_, _, rfl⟩

/-- C2: duplicate delivery is idempotent — an item whose ID is already in
the dedup store yields `null`, no effects and an unchanged store; and on
the first delivery of a fresh, non-self item, the store afterwards
contains the ID and the dedup insertion is the first element of the
effect trace, so it happens before any publish. -/
theorem processAgentReaction_at_most_once :
    (∀ (agent : AgentConfig) (au : Option String) (tweet : IncomingTweet)
        (processed : List String) (gr : ReactionAction) (r1 r2 r3 : ℚ),
      processed.contains tweet.id = true →
      processAgentReaction agent au tweet processed gr r1 r2 r3 =
        (none, processed, [])) ∧
    (∀ (agent : AgentConfig) (au : Option String) (tweet : IncomingTweet)
        (processed : List String) (gr : ReactionAction) (r1 r2 r3 : ℚ),
      processed.contains tweet.id = false →
      isSelfMention agent au tweet = false →
      (processAgentReaction agent au tweet processed gr r1 r2 r3).2.1.contains
          tweet.id = true ∧
      ∃ rest, (processAgentReaction agent au tweet processed gr r1 r2 r3).2.2 =
          Effect.dedupAdd tweet.id :: rest) := by
  constructor
  · intro agent au tweet processed gr r1 r2 r3 hdup
    rw [processAgentReaction]
    by_cases hs : isSelfMention agent au tweet
    · rw [if_pos hs]
    · rw [if_neg hs, if_pos hdup]
  · intro agent au tweet processed gr r1 r2 r3 hfresh hself
    obtain ⟨res, rest, hshape⟩ :=
      processAgentReaction_fresh_shape agent au tweet processed gr r1 r2 r3
        hself hfresh
    rw [hshape]
    exact ⟨by simp, rest, rfl⟩

/-- A sample agent configuration (probabilities are the code defaults). -/
def sampleAgent : AgentConfig := ⟨"bot1", "Bot One", 1/2, 3/10, 7/10⟩

/-- A direct mention of the sample agent by another user. -/
def sampleTweet : IncomingTweet :=
  ⟨"t1", "@bot1 hello", "user7", some "User7", none, true⟩

/-- A tweet authored by the sample agent itself. -/
def selfTweet : IncomingTweet :=
  ⟨"t2", "gm", "bot1", some "Bot1", none, false⟩

/-- A passive tweet that mentions nothing and is fresh. -/
def passiveTweet : IncomingTweet :=
  ⟨"t3", "gm world", "user9", some "User9", none, false⟩

/-- Witness for `processAgentReaction_at_most_once` at concrete inputs. -/
theorem processAgentReaction_at_most_once_witness :
    processAgentReaction sampleAgent (some "bot1") sampleTweet ["t1"]
        ReactionAction.ignore 0 0 0 = (none, ["t1"], []) ∧
    ((processAgentReaction sampleAgent (some "bot1") sampleTweet []
          ReactionAction.ignore 0 0 0).2.1.contains sampleTweet.id = true ∧
      ∃ rest, (processAgentReaction sampleAgent (some "bot1") sampleTweet []
          ReactionAction.ignore 0 0 0).2.2 =
            Effect.dedupAdd sampleTweet.id :: rest) :=
  ⟨processAgentReaction_at_most_once.1 sampleAgent (some "bot1") sampleTweet
      ["t1"] ReactionAction.ignore 0 0 0 (by decide),
   processAgentReaction_at_most_once.2 sampleAgent (some "bot1") sampleTweet
      [] ReactionAction.ignore 0 0 0 (by decide) (by decide)⟩

/-- C3: an item authored by the agent itself — same author ID, or an
author username that case-insensitively matches the agent's fetched
username — is dropped: `null` result, no effects (no reply, like or
quote). -/
theorem processAgentReaction_self_immune (agent : AgentConfig)
    (au : Option String) (tweet : IncomingTweet) (processed : List String)
    (gr : ReactionAction) (r1 r2 r3 : ℚ)
    (h : tweet.authorId = agent.id ∨
      ∃ auName tu, au = some auName ∧ tweet.authorUsername = some tu ∧
        lowerStr tu = auName) :
    processAgentReaction agent au tweet processed gr r1 r2 r3 =
      (none, processed, []) := by
  have hs : isSelfMention agent au tweet = true := by
    rcases h with h | ⟨auName, tu, hau, htu, hl⟩
    · simp [isSelfMention, h]
    · simp [isSelfMention, hau, htu, hl]
  rw [processAgentReaction, if_pos hs]

/-- Witness for `processAgentReaction_self_immune` at concrete inputs. -/
theorem processAgentReaction_self_immune_witness :
    processAgentReaction sampleAgent (some "bot1") selfTweet []
        ReactionAction.reply 0 0 0 = (none, [], []) :=
  processAgentReaction_self_immune sampleAgent (some "bot1") selfTweet []
    ReactionAction.reply 0 0 0 (Or.inl (by decide))

/-- C10: a self-mention is dropped *before* the dedup insertion — the
dedup store is unchanged and no memory or relationship update happens —
and an ID only ever enters the store when the self-check passed. -/
theorem selfCheck_precedes_dedupAdd :
    (∀ (agent : AgentConfig) (au : Option String) (tweet : IncomingTweet)
        (processed : List String) (gr : ReactionAction) (r1 r2 r3 : ℚ),
      isSelfMention agent au tweet = true →
      (processAgentReaction agent au tweet processed gr r1 r2 r3).2.1 =
          processed ∧
      Effect.memoryUpdate ∉
        (processAgentReaction agent au tweet processed gr r1 r2 r3).2.2 ∧
      ∀ t, Effect.relationshipUpdate t ∉
        (processAgentReaction agent au tweet processed gr r1 r2 r3).2.2) ∧
    (∀ (agent : AgentConfig) (au : Option String) (tweet : IncomingTweet)
        (processed : List String) (gr : ReactionAction) (r1 r2 r3 : ℚ),
      tweet.id ∈ (processAgentReaction agent au tweet processed gr r1 r2 r3).2.1 →
      tweet.id ∈ processed ∨ isSelfMention agent au tweet = false) := by
  constructor
  · intro agent au tweet processed gr r1 r2 r3 hs
    rw [processAgentReaction, if_pos hs]
    simp
  · intro agent au tweet processed gr r1 r2 r3 hmem
    by_cases hs : isSelfMention agent au tweet
    · rw [processAgentReaction, if_pos hs] at hmem
      exact Or.inl hmem
    · exact Or.inr (by simpa using hs)

/-- Witness for `selfCheck_precedes_dedupAdd` at concrete inputs. -/
theorem selfCheck_precedes_dedupAdd_witness :
    ((processAgentReaction sampleAgent (some "bot1") selfTweet ["x"]
          ReactionAction.reply 0 0 0).2.1 = ["x"] ∧
      Effect.memoryUpdate ∉
        (processAgentReaction sampleAgent (some "bot1") selfTweet ["x"]
          ReactionAction.reply 0 0 0).2.2 ∧
      ∀ t, Effect.relationshipUpdate t ∉
        (processAgentReaction sampleAgent (some "bot1") selfTweet ["x"]
          ReactionAction.reply 0 0 0).2.2) ∧
    (selfTweet.id ∈ ["t2"] ∨
      isSelfMention sampleAgent (some "bot1") selfTweet = false) :=
  ⟨selfCheck_precedes_dedupAdd.1 sampleAgent (some "bot1") selfTweet ["x"]
      ReactionAction.reply 0 0 0 (by decide),
   selfCheck_precedes_dedupAdd.2 sampleAgent (some "bot1") selfTweet ["t2"]
      ReactionAction.reply 0 0 0 (by decide)⟩

/-- C8: for a fresh, non-self, non-mention item classified `quote`, the
quote is published iff the fresh draw is at most
`quoteTweetProbability × 0.5`; otherwise the action is downgraded to
`ignore` (null result, only the dedup insertion happens).  With the
configured probability 0.3 the acceptance threshold is exactly
0.3 × 0.5 = 0.15. -/
theorem processAgentReaction_quote_dampening (agent : AgentConfig)
    (au : Option String) (tweet : IncomingTweet) (processed : List String)
    (r1 r2 r3 : ℚ)
    (hself : isSelfMention agent au tweet = false)
    (hfresh : processed.contains tweet.id = false)
    (hm : isMention agent tweet = false) :
    (Effect.publishQuote tweet.id ∈
        (processAgentReaction agent au tweet processed
          ReactionAction.quote r1 r2 r3).2.2 ↔
      r1 ≤ agent.quoteTweetProbability * (1/2)) ∧
    (agent.quoteTweetProbability * (1/2) < r1 →
      processAgentReaction agent au tweet processed
          ReactionAction.quote r1 r2 r3 =
        (none, tweet.id :: processed, [Effect.dedupAdd tweet.id])) ∧
    (3:ℚ)/10 * (1/2) = 3/20 := by
  rw [processAgentReaction, if_neg (by rw [hself]; exact Bool.false_ne_true),
    if_neg (by rw [hfresh]; exact Bool.false_ne_true),
    if_neg (by rw [hm]; exact Bool.false_ne_true)]
  by_cases hr : r1 ≤ agent.quoteTweetProbability * (1/2)
  · rw [if_neg (by simp; linarith [hr])]
    refine ⟨?_, ?_, by norm_num⟩
    · simp
      linarith [hr]
    · intro hlt
      exact absurd hr (not_le.mpr hlt)
  · rw [if_pos (by simp; linarith [lt_of_not_le hr])]
    refine ⟨?_, ?_, by norm_num⟩
    · simp
      linarith [lt_of_not_le hr]
    · intro _
      rfl

/-- Witness for `processAgentReaction_quote_dampening` at concrete inputs. -/
theorem processAgentReaction_quote_dampening_witness :
    (Effect.publishQuote passiveTweet.id ∈
        (processAgentReaction sampleAgent (some "bot1") passiveTweet []
          ReactionAction.quote (1/10) 0 0).2.2 ↔
      (1/10 : ℚ) ≤ sampleAgent.quoteTweetProbability * (1/2)) ∧
    (sampleAgent.quoteTweetProbability * (1/2) < (1/10 : ℚ) →
      processAgentReaction sampleAgent (some "bot1") passiveTweet []
          ReactionAction.quote (1/10) 0 0 =
        (none, passiveTweet.id :: [], [Effect.dedupAdd passiveTweet.id])) ∧
    (3:ℚ)/10 * (1/2) = 3/20 :=
  processAgentReaction_quote_dampening sampleAgent (some "bot1") passiveTweet
    [] (1/10) 0 0 (by decide) (by decide) (by decide)

/-! ## Conversation resolver: `fetchConversationThread`

Embedding of `fetchConversationThread(tweetId, conversationHistory,
agentId, depth = 0, maxDepth = 5)`.  The external `getTweet` is a
parameter; a failed fetch is `none` (the source catches the error, keeps
whatever was gathered and returns).  The recursion consumes the fuel
`maxDepth - depth`, exactly the number of levels the depth guard
(`if depth >= maxDepth return`) still allows, so termination is
structural — also on cyclic reply chains. -/

/-- A fetched tweet as consumed by the conversation resolver. -/
structure ThreadTweet where
  authorId : String
  content : String
  createdAt : ℕ
  replyToId : Option String

/-- One entry of the conversation history. -/
structure ConversationEntry where
  role : String
  content : String
  timestamp : ℕ
deriving DecidableEq

/-- The conversation entry pushed for one fetched tweet. -/
def entryOf (agentId : String) (tw : ThreadTweet) : ConversationEntry :=
  ⟨if tw.authorId == agentId then "agent" else "user", tw.content, tw.createdAt⟩

/-- The recursive walk, on the remaining depth budget. -/
def fetchThreadAux (getTweet : String → Option ThreadTweet) (agentId : String) :
    ℕ → String → List ConversationEntry → List ConversationEntry
  | 0, _, history => history
  | fuel + 1, tweetId, history =>
    match getTweet tweetId with
    | none => history
    | some tw =>
      match tw.replyToId with
      | none => history ++ [entryOf agentId tw]
      | some parentId =>
        fetchThreadAux getTweet agentId fuel parentId (history ++ [entryOf agentId tw])

/-- Method `fetchConversationThread`, returning the final conversation history. -/
def fetchConversationThread (getTweet : String → Option ThreadTweet)
    (tweetId : String) (history : List ConversationEntry) (agentId : String)
    (depth : ℕ) (maxDepth : ℕ) : List ConversationEntry :=
  fetchThreadAux getTweet agentId (maxDepth - depth) tweetId history

/-- Each level of the walk appends at most one entry and preserves the
entries gathered so far. -/
theorem fetchThreadAux_length_le (getTweet : String → Option ThreadTweet)
    (agentId : String) : ∀ (fuel : ℕ) (tweetId : String)
    (history : List ConversationEntry),
    (fetchThreadAux getTweet agentId fuel tweetId history).length ≤
        history.length + fuel ∧
    ∃ extra, fetchThreadAux getTweet agentId fuel tweetId history =
        history ++ extra := by
  intro fuel
  induction fuel with
  | zero =>
    intro tweetId history
    refine ⟨?_, [], ?_⟩
    · rw [fetchThreadAux]
      omega
    · rw [fetchThreadAux, List.append_nil]
  | succ n ih =>
    intro tweetId history
    rw [fetchThreadAux]
    split
    · exact ⟨Nat.le_add_right _ _, [], by rw [List.append_nil]⟩
    · rename_i tw hgtw
      split
      · rename_i parentNone
        refine ⟨?_, [entryOf agentId tw], rfl⟩
        rw [List.length_append, List.length_singleton]
        omega
      · rename_i parentId parentSome
        obtain ⟨hlen, extra, hpre⟩ := ih parentId (history ++ [entryOf agentId tw])
        refine ⟨?_, [entryOf agentId tw] ++ extra, ?_⟩
        · rw [List.length_append, List.length_singleton] at hlen
          omega
        · rw [hpre, List.append_assoc]

/-- A cyclic fetch map: tweet A is a reply to B and B a reply to A. -/
def cyclicFetch : String → Option ThreadTweet
  | "A" => some ⟨"u1", "tweet a", 1, some "B"⟩
  | "B" => some ⟨"u2", "tweet b", 2, some "A"⟩
  | _ => none

/-- A linear reply chain `c1 → c2 → … → c10` of length 10. -/
def chainFetch : String → Option ThreadTweet
  | "c1" => some ⟨"u1", "m1", 1, some "c2"⟩
  | "c2" => some ⟨"u2", "m2", 2, some "c3"⟩
  | "c3" => some ⟨"u3", "m3", 3, some "c4"⟩
  | "c4" => some ⟨"u4", "m4", 4, some "c5"⟩
  | "c5" => some ⟨"u5", "m5", 5, some "c6"⟩
  | "c6" => some ⟨"u6", "m6", 6, some "c7"⟩
  | "c7" => some ⟨"u7", "m7", 7, some "c8"⟩
  | "c8" => some ⟨"u8", "m8", 8, some "c9"⟩
  | "c9" => some ⟨"u9", "m9", 9, some "c10"⟩
  | "c10" => some ⟨"u10", "m10", 10, none⟩
  | _ => none

/-- C6: `fetchConversationThread` is total (it is a Lean function, so it
terminates on every chain, cyclic ones included), appends at most
`maxDepth - depth` ancestor entries to the given history while preserving
it, and a failed ancestor fetch just stops the walk with the gathered
entries.  On the two-tweet cycle it stops after exactly `maxDepth = 5`
entries, and on a 10-long chain it gathers exactly 5. -/
theorem fetchConversationThread_depth_bounded :
    (∀ (getTweet : String → Option ThreadTweet) (tweetId agentId : String)
        (history : List ConversationEntry) (depth maxDepth : ℕ),
      (fetchConversationThread getTweet tweetId history agentId depth
          maxDepth).length ≤ history.length + (maxDepth - depth) ∧
      ∃ extra, fetchConversationThread getTweet tweetId history agentId depth
          maxDepth = history ++ extra) ∧
    (∀ (getTweet : String → Option ThreadTweet) (tweetId agentId : String)
        (history : List ConversationEntry) (depth maxDepth : ℕ),
      getTweet tweetId = none →
      fetchConversationThread getTweet tweetId history agentId depth
          maxDepth = history) ∧
    (fetchConversationThread cyclicFetch "A" [] "ag" 0 5).length = 5 ∧
    (fetchConversationThread chainFetch "c1" [] "ag" 0 5).length = 5 := by
  refine ⟨?_, ?_, by decide, by decide⟩
  · intro getTweet tweetId agentId history depth maxDepth
    exact fetchThreadAux_length_le getTweet agentId (maxDepth - depth) tweetId history
  · intro getTweet tweetId agentId history depth maxDepth hnone
    rw [fetchConversationThread]
    cases hd : maxDepth - depth with
    | zero => rfl
    | succ n => rw [fetchThreadAux, hnone]

/-- Witness for `fetchConversationThread_depth_bounded` at concrete inputs. -/
theorem fetchConversationThread_depth_bounded_witness :
    fetchConversationThread cyclicFetch "nope" [] "ag" 0 5 = [] :=
  fetchConversationThread_depth_bounded.2.1 cyclicFetch "nope" "ag" [] 0 5 rfl

/-! ## Memory manager: `updateRelationship`

Embedding of `updateRelationship(agentId, targetAgentId, changes)` from
the memory manager.  A field of `changes` is `none` when the key is
absent.  Note the clamp applied to `sentiment`, `familiarity` and `trust`
is the *same* `Math.max(-1, Math.min(1, v))` for all three keys. -/

/-- A relationship record (defaults from the core types). -/
structure Relationship where
  sentiment : ℚ
  familiarity : ℚ
  trust : ℚ
  notes : List String
  recentInteractions : List String
  sharedExperiences : List String
deriving DecidableEq

/-- A freshly created relationship (`new Relationship(target)`). -/
def newRelationship : Relationship := ⟨0, 0, 0, [], [], []⟩

/-- The `changes` object passed to `updateRelationship`. -/
structure RelationshipChanges where
  sentiment : Option ℚ
  familiarity : Option ℚ
  trust : Option ℚ
  notes : Option (List String)
  recentInteractions : Option (List String)
  sharedExperiences : Option (List String)

/-- Method `updateRelationship`: apply each present change key. -/
def updateRelationship (rel : Relationship) (changes : RelationshipChanges) :
    Relationship where
  sentiment :=
    match changes.sentiment with
    | some v => max (-1) (min 1 v)
    | none => rel.sentiment
  familiarity :=
    match changes.familiarity with
    | some v => max (-1) (min 1 v)
    | none => rel.familiarity
  trust :=
    match changes.trust with
    | some v => max (-1) (min 1 v)
    | none => rel.trust
  notes :=
    match changes.notes with
    | some l => l ++ rel.notes
    | none => rel.notes
  recentInteractions :=
    match changes.recentInteractions with
    | some l => (l ++ rel.recentInteractions).take 10
    | none => rel.recentInteractions
  sharedExperiences :=
    match changes.sharedExperiences with
    | some l => l ++ rel.sharedExperiences
    | none => rel.sharedExperiences

/-- A familiarity change with a negative value, as produced by the agent
manager when the LLM returns a negative `familiarityChange`. -/
def negFamiliarityChanges : RelationshipChanges :=
  ⟨none, some (-(1/2)), none, none, none, none⟩

/-- C9 failing input: `updateRelationship` clamps `familiarity` (and
`trust`) with the same `[-1, 1]` clamp used for `sentiment`, so a
negative familiarity value passes through and the claimed `[0, 1]` bound
(also stated by the `// 0.0 to 1.0` comments on the `Relationship` type)
is violated: a change of −0.5 on a fresh relationship leaves
`familiarity = −0.5`. -/
theorem updateRelationship_familiarity_not_bounded :
    (updateRelationship newRelationship negFamiliarityChanges).familiarity
        = -(1/2) ∧
    ¬ (0 ≤ (updateRelationship newRelationship
        negFamiliarityChanges).familiarity) := by
  have h : (updateRelationship newRelationship negFamiliarityChanges).familiarity
      = -(1/2) := by
    simp only [updateRelationship, negFamiliarityChanges, newRelationship]
    norm_num
  exact ⟨h, by rw [h]; norm_num⟩

end PumpCantFun
